import Mathlib

/-!
Verification of the lyricbridge lyric-rendering engine.

The Python sources under `src/lyricbridge/` are shallowly embedded here:
Python `str` is modelled as `List Char` (`Str`), Python `dict[int, str]`
as an association list built with last-write-wins insertion, and the
module-level optional `lazy_pinyin` import as an explicit
`Option (Str -> List Str)` parameter.  Recursions that are not structural
in Python (string scanning, `str.replace`, the `$fillLength` while loop)
are given an explicit fuel argument equal to an a-priori sufficient bound,
so every definition is executable by kernel reduction; fuel-irrelevance
lemmas recover the unbounded behaviour.  The `$fillLength` while loop of
`render_filename` can actually diverge in Python (empty fill symbol), so
its model returns `Option`: `none` models the diverging run.
-/

set_option maxRecDepth 4000

namespace LyricBridge

/-- Python `str` is modelled as a list of characters. -/
abbrev Str := List Char

/-- Coerce a Lean string literal into the `Str` model. -/
def pstr (s : String) : Str := s.data

/-! ### Python string primitives used by the sources -/

/-- Characters treated as whitespace by Python `str.strip()` (the ASCII
part of the Unicode whitespace set; the sources only strip lyric text,
whose whitespace is drawn from this set). -/
def pyIsSpace (c : Char) : Bool :=
  c = ' ' || c = '\t' || c = '\n' || c = '\r' || c = '\x0b' || c = '\x0c' ||
  c = '\x1c' || c = '\x1d' || c = '\x1e' || c = '\x1f' || c = '\x85' || c = '\xa0'

/-- Python `str.strip()`: drop leading and trailing whitespace. -/
def pyStrip (l : Str) : Str :=
  ((l.dropWhile pyIsSpace).reverse.dropWhile pyIsSpace).reverse

/-- Line-break characters recognised by Python `str.splitlines()`
(the `\r\n` pair is handled separately in `pySplitlines`). -/
def pyIsLineBreak (c : Char) : Bool :=
  c = '\n' || c = '\r' || c = '\x0b' || c = '\x0c' ||
  c = '\x1c' || c = '\x1d' || c = '\x1e' || c = '\x85' ||
  c = '\u2028' || c = '\u2029'

/-- Helper for `pySplitlines`; `acc` holds the current line reversed. -/
def pySplitlinesAux : Str → Str → List Str
  | [], acc => if acc = [] then [] else [acc.reverse]
  | '\r' :: '\n' :: rest, acc => acc.reverse :: pySplitlinesAux rest []
  | c :: rest, acc =>
    if pyIsLineBreak c then acc.reverse :: pySplitlinesAux rest []
    else pySplitlinesAux rest (c :: acc)

/-- Python `str.splitlines()`: split at line breaks, no trailing empty
line for a trailing break. -/
def pySplitlines (l : Str) : List Str := pySplitlinesAux l []

/-- Fuel-indexed model of Python `str.replace(old, new)`: scan left to
right, replacing each non-overlapping occurrence of `old`, without
rescanning the replacement text.  `fuel >= s.length` makes the fuel
irrelevant (`replaceF_fuel`). -/
def replaceF : Nat → Str → Str → Str → Str
  | 0, s, _, _ => s
  | _ + 1, [], _, _ => []
  | fuel + 1, c :: rest, old, new =>
    if old ≠ [] ∧ old.isPrefixOf (c :: rest) then
      new ++ replaceF fuel ((c :: rest).drop old.length) old new
    else
      c :: replaceF fuel rest old new

/-- Python `str.replace(old, new)` (the sources never call it with an
empty `old`, for which `replaceF` would return the string unchanged). -/
def pyReplace (s old new : Str) : Str := replaceF s.length s old new

/-- Python `sep.join(parts)`. -/
def pyJoin (sep : Str) (parts : List Str) : Str := List.intercalate sep parts

/-! ### Decimal digits: model of `int(s)` and of `f"{n:0kd}"` -/

/-- The character for a single decimal digit (Python number formatting
only ever emits digits 0-9 at each position). -/
def digitChar : Nat → Char
  | 0 => '0' | 1 => '1' | 2 => '2' | 3 => '3' | 4 => '4'
  | 5 => '5' | 6 => '6' | 7 => '7' | 8 => '8' | 9 => '9'
  | _ => '*'

/-- Numeric value of a digit character (as used by `int`). -/
def digitVal (c : Char) : Nat := c.toNat - 48

/-- Value of a digit string, the model of Python `int(s)` on the
all-digit strings produced by the timestamp regular expression. -/
def digitsVal (l : Str) : Nat := l.foldl (fun a c => a * 10 + digitVal c) 0

/-- Fuel-indexed decimal rendering of a natural number. -/
def natDigitsF : Nat → Nat → Str
  | 0, _ => []
  | fuel + 1, n =>
    if n < 10 then [digitChar n]
    else natDigitsF fuel (n / 10) ++ [digitChar (n % 10)]

/-- Decimal rendering of a natural number, the model of Python `str(n)`
and `f"{n:d}"`. -/
def natDigits (n : Nat) : Str := natDigitsF (n + 1) n

/-- Left-pad with zeros to width `w`, the model of `f"{n:0wd}"` applied
to `natDigits n`. -/
def zfill (w : Nat) (l : Str) : Str := List.replicate (w - l.length) '0' ++ l


/-! ### The timestamp tag scanner (`TIMESTAMP_RE`, `lyrics.py` line 15) -/

/-- Captured groups of one match of
`TIMESTAMP_RE`, the pattern `\[` `(\d{1,2})` `:` `(\d{1,2})` optional
(`\.` `(\d{1,3})`) `\]`. -/
structure TagGroups where
  minutes : Str
  seconds : Str
  frac : Option Str
deriving DecidableEq

/-- Match one bounded digit group of `TIMESTAMP_RE`.  Each `\d{1,k}`
group of the pattern is followed by a non-digit, so greedy matching
with backtracking matches exactly the maximal digit run at this point
and fails when that run is empty or longer than `k` (a shortened run
would still be followed by a digit, never by the required non-digit). -/
def matchRun (maxLen : Nat) (l : Str) : Option (Str × Str) :=
  let d := l.takeWhile Char.isDigit
  if d.length = 0 ∨ maxLen < d.length then none
  else some (d, l.dropWhile Char.isDigit)

/-- Attempt to match `TIMESTAMP_RE` at the head of `l`; on success
return the captured groups and the remainder after the match. -/
def tryTag : Str → Option (TagGroups × Str)
  | '[' :: r0 =>
    (match matchRun 2 r0 with
    | none => none
    | some (d1, r1) =>
      match r1 with
      | ':' :: r2 =>
        (match matchRun 2 r2 with
        | none => none
        | some (d2, r3) =>
          match r3 with
          | ']' :: r4 => some (⟨d1, d2, none⟩, r4)
          | '.' :: r5 =>
            (match matchRun 3 r5 with
            | none => none
            | some (d3, r6) =>
              match r6 with
              | ']' :: r7 => some (⟨d1, d2, some d3⟩, r7)
              | _ => none)
          | _ => none)
      | _ => none)
  | _ => none

/-- Fuel-indexed scan of one line for all matches of `TIMESTAMP_RE`
(`finditer`), also accumulating the unmatched characters, i.e. the line
with every match removed (`TIMESTAMP_RE.sub("", line)`).  One unit of
fuel is spent per scan position and every step consumes at least one
character, so `fuel = l.length` is always sufficient. -/
def scanTagsF : Nat → Str → List TagGroups × Str
  | 0, l => ([], l)
  | _ + 1, [] => ([], [])
  | fuel + 1, c :: rest =>
    match tryTag (c :: rest) with
    | some (t, r) =>
      let (ts, out) := scanTagsF fuel r
      (t :: ts, out)
    | none =>
      let (ts, out) := scanTagsF fuel rest
      (ts, c :: out)

/-- All matches of `TIMESTAMP_RE` in a line, plus the line with the
matches removed. -/
def scanTags (l : Str) : List TagGroups × Str := scanTagsF l.length l

/-- Python `s.ljust(w, "0")`. -/
def ljustZero (w : Nat) (l : Str) : Str := l ++ List.replicate (w - l.length) '0'

/-- Milliseconds denoted by one regex match, as computed by the match
loop of `parse_lrc` (`lyrics.py` lines 31-36): the fraction group
defaults to `"0"`, is right-padded with zeros to three digits and
truncated to three digits. -/
def tagMs (t : TagGroups) : Nat :=
  let minutes := digitsVal t.minutes
  let seconds := digitsVal t.seconds
  let msRaw := t.frac.getD (pstr "0")
  let ms := digitsVal ((ljustZero 3 msRaw).take 3)
  (minutes * 60 + seconds) * 1000 + ms

/-- The spec's `parseTag`: parse one complete timestamp tag body
`minutes:seconds[.fraction]` (the scanner sees it between its brackets)
into milliseconds, `none` when the tag grammar does not match the whole
text. -/
def parseTag (s : Str) : Option Nat :=
  match tryTag ('[' :: s ++ [']']) with
  | some (t, []) => some (tagMs t)
  | _ => none

/-! ### Data model (`models.py`) -/

/-- The `LyricType` enumeration. -/
inductive LyricType
  | original | translated | transliteration | pinyin
deriving DecidableEq

/-- The string value of a `LyricType` member (`lyric_type.value`). -/
def LyricType.value : LyricType → Str
  | .original => pstr "original"
  | .translated => pstr "translated"
  | .transliteration => pstr "transliteration"
  | .pinyin => pstr "pinyin"

/-- The `ShowLrcType` enumeration (combination policy). -/
inductive ShowLrcType
  | stagger | merge | isolated
deriving DecidableEq

/-- The `OutputFormat` enumeration. -/
inductive OutputFormat
  | lrc | srt
deriving DecidableEq

/-- `LyricLine` (`models.py`): timestamps are unsigned. -/
structure LyricLine where
  timestamp_ms : Nat
  text : Str
deriving DecidableEq

/-- `OutputPayload` (`models.py`). -/
structure OutputPayload where
  content : Str
  extension : Str
  encoding : Str
  suffix : Option Str := none
deriving DecidableEq

/-- The subset of `AppConfig` (`config.py`) read by the rendering
engine; configuration fields the engine never reads are omitted. -/
structure AppConfig where
  ignore_empty_lines : Bool
  prefer_verbatim : Bool
  output_encoding : Str
  lrc_timestamp_format : Str
  srt_timestamp_format : Str
deriving DecidableEq

/-- `Lyrics` (`models.py`): the five raw text blobs. -/
structure Lyrics where
  original : Str := []
  translated : Str := []
  transliteration : Str := []
  verbatim : Str := []
  pinyin : Str := []
deriving DecidableEq

/-! ### `parse_lrc` and `format_timestamp` (`lyrics.py`) -/

/-- The sort key relation of `parse_lrc`
(`sorted(lines, key=lambda item: item.timestamp_ms)`). -/
def lyricLe (a b : LyricLine) : Prop := a.timestamp_ms ≤ b.timestamp_ms

instance : DecidableRel lyricLe := fun a b => Nat.decLe a.timestamp_ms b.timestamp_ms

instance : IsTotal LyricLine lyricLe := ⟨fun a b => Nat.le_total a.timestamp_ms b.timestamp_ms⟩

instance : IsTrans LyricLine lyricLe := ⟨fun _ _ _ => Nat.le_trans⟩

/-- One iteration of the line loop of `parse_lrc` (`lyrics.py` lines
23-37): find all tag matches in the physical line, drop the line when
there is none, strip the tag-free text, drop the whole line when
`ignore_empty` is set and the stripped text is empty, otherwise emit
one `LyricLine` per tag in match order, all with the same text. -/
def parseLrcLine (ignore_empty : Bool) (raw_line : Str) : List LyricLine :=
  let scanned := scanTags raw_line
  if scanned.1 = [] then []
  else
    let content := pyStrip scanned.2
    if ignore_empty ∧ content = [] then []
    else scanned.1.map (fun m => ⟨tagMs m, content⟩)

/-- Python `sorted(·, key=lambda item: item.timestamp_ms)` is a stable
sort by the timestamp; `List.insertionSort` over the total preorder
`lyricLe` is such a stable sort (stability is proved with claim C6),
and any two stable sorts by the same key agree. -/
def lyricSort (lines : List LyricLine) : List LyricLine :=
  List.insertionSort lyricLe lines

/-- `parse_lrc` (`lyrics.py` lines 18-39); the accumulating loop over
`text.splitlines()` is the flat map of `parseLrcLine`. -/
def parse_lrc (text : Str) (ignore_empty : Bool) : List LyricLine :=
  if text = [] then []
  else lyricSort ((pySplitlines text).flatMap (parseLrcLine ignore_empty))

/-- `format_timestamp` (`lyrics.py` lines 42-60): substitute the tokens
`HH mm ss SSS SS S`, in that fixed order, by literal single-pass
replacement.  `timestamp_ms` is a natural number, so `max(0, ·)` in the
source is the identity and `//`, `%` agree with Python. -/
def format_timestamp (timestamp_ms : Nat) (fmt : Str) : Str :=
  let total_seconds := timestamp_ms / 1000
  let hours := total_seconds / 3600
  let minutes := (total_seconds % 3600) / 60
  let seconds := total_seconds % 60
  let ms := timestamp_ms % 1000
  let subs : List (Str × Str) :=
    [ (pstr "HH", zfill 2 (natDigits hours)),
      (pstr "mm", zfill 2 (natDigits minutes)),
      (pstr "ss", zfill 2 (natDigits seconds)),
      (pstr "SSS", zfill 3 (natDigits ms)),
      (pstr "SS", zfill 2 (natDigits (ms / 10))),
      (pstr "S", natDigits (ms / 100)) ]
  subs.foldl (fun f p => pyReplace f p.1 p.2) fmt

/-! ### Track maps and the union timeline (`lyrics.py`) -/

/-- A Python `dict[int, str]`: an insertion-ordered association list
with unique keys. -/
abbrev TsMap := List (Nat × Str)

/-- `d[k] = v` on a Python dict: overwrite in place when the key
exists, append otherwise. -/
def mapSet (m : TsMap) (k : Nat) (v : Str) : TsMap :=
  if m.any (fun p => p.1 == k) then
    m.map (fun p => if p.1 == k then (p.1, v) else p)
  else m ++ [(k, v)]

/-- `_lines_to_map` (`lyrics.py` lines 63-67): insert in sequence
order, last write wins. -/
def lines_to_map (lines : List LyricLine) : TsMap :=
  lines.foldl (fun m line => mapSet m line.timestamp_ms line.text) []

/-- `d.get(k, "")` on a Python dict. -/
def mapGet (m : TsMap) (k : Nat) : Str :=
  match m.find? (fun p => p.1 == k) with
  | some p => p.2
  | none => []

/-- `d.keys()` on a Python dict. -/
def mapKeys (m : TsMap) : List Nat := m.map (·.1)

/-- `_collect_timestamps` (`lyrics.py` lines 70-74): the set union of
the key sets of the given maps, returned ascending (`sorted(ts)` on the
set `ts`), modelled canonically as a sort of the deduplicated
concatenation of the key lists. -/
def collect_timestamps (maps : List TsMap) : List Nat :=
  List.insertionSort (fun a b => a ≤ b) (maps.flatMap mapKeys).dedup

/-- `_build_pinyin_lines` (`lyrics.py` lines 77-87); `cap` models the
module-level optional `lazy_pinyin` import, `none` when the import
failed (the capability degrades to an empty track). -/
def build_pinyin_lines (cap : Option (Str → List Str)) (lines : List LyricLine) :
    List LyricLine :=
  match cap with
  | none => []
  | some lazy =>
    lines.map (fun line =>
      if pyStrip line.text = [] then ⟨line.timestamp_ms, []⟩
      else ⟨line.timestamp_ms, pyJoin (pstr " ") (lazy line.text)⟩)

/-! ### The renderers (`lyrics.py`) -/

/-- The `type_maps` dictionary: an insertion-ordered association list
from `LyricType` to that track's timestamp map. -/
abbrev TypeMaps := List (LyricType × TsMap)

/-- `type_maps.get(lyric_type, {})`. -/
def tmGet (tm : TypeMaps) (t : LyricType) : TsMap :=
  match tm.find? (fun p => p.1 == t) with
  | some p => p.2
  | none => []

/-- `_merge_texts` (`lyrics.py` lines 237-250): collect each requested
track's text in order, skipping empty text when `ignore_empty`, join
with the separator and strip. -/
def merge_texts (type_maps : TypeMaps) (lyric_types : List LyricType)
    (ts : Nat) (separator : Str) (ignore_empty : Bool) : Str :=
  let parts := lyric_types.foldl (fun parts t =>
    let text := mapGet (tmGet type_maps t) ts
    if ignore_empty ∧ text = [] then parts else parts ++ [text]) []
  pyStrip (pyJoin separator parts)

/-- `_render_lrc` (`lyrics.py` lines 167-189), the imperative
`lines.append` loops rendered as folds. -/
def render_lrc (type_maps : TypeMaps) (timestamps : List Nat)
    (config : AppConfig) (merge_separator : Str)
    (show_lrc_type : ShowLrcType) (lyric_types : List LyricType) : Str :=
  let lines := timestamps.foldl (fun lines ts =>
    if show_lrc_type = ShowLrcType.merge then
      let merged := merge_texts type_maps lyric_types ts merge_separator
        config.ignore_empty_lines
      if merged = [] then lines
      else lines ++ [format_timestamp ts config.lrc_timestamp_format ++ merged]
    else
      lyric_types.foldl (fun lines t =>
        let text := mapGet (tmGet type_maps t) ts
        if config.ignore_empty_lines ∧ text = [] then lines
        else lines ++ [format_timestamp ts config.lrc_timestamp_format ++ text]) lines) []
  pyJoin (pstr "\n") lines

/-- The end timestamp of the cue starting at `ts` when the remaining
timeline after `ts` is `rest` (`lyrics.py` line 203:
`timestamps[idx + 1] if idx + 1 < len(timestamps) else ts + 2000`;
while iterating the timeline, `timestamps[idx + 1]` is the head of the
remaining list). -/
def srtEnd (ts : Nat) (rest : List Nat) : Nat :=
  match rest with
  | next :: _ => next
  | [] => ts + 2000

/-- The cue loop of `_render_srt` (`lyrics.py` lines 200-232); `segIdx`
is `segment_index`, 1-based, incremented only when a cue is emitted. -/
def srtLoop (type_maps : TypeMaps) (config : AppConfig) (merge_separator : Str)
    (show_lrc_type : ShowLrcType) (lyric_types : List LyricType) :
    List Nat → Nat → List Str
  | [], _ => []
  | ts :: rest, segIdx =>
    let end_ts := srtEnd ts rest
    let content : Option Str :=
      if show_lrc_type = ShowLrcType.merge then
        let text := merge_texts type_maps lyric_types ts merge_separator
          config.ignore_empty_lines
        if text = [] then none else some text
      else
        let texts := lyric_types.foldl (fun texts t =>
          let text := mapGet (tmGet type_maps t) ts
          if config.ignore_empty_lines ∧ text = [] then texts
          else texts ++ [text]) []
        if texts = [] then none else some (pyJoin (pstr "\n") texts)
    match content with
    | none => srtLoop type_maps config merge_separator show_lrc_type lyric_types rest segIdx
    | some body =>
      pyJoin (pstr "\n")
        [ natDigits segIdx,
          format_timestamp ts config.srt_timestamp_format ++ pstr " --> " ++
            format_timestamp end_ts config.srt_timestamp_format,
          body, [] ] ::
        srtLoop type_maps config merge_separator show_lrc_type lyric_types rest (segIdx + 1)

/-- `_render_srt` (`lyrics.py` lines 192-234). -/
def render_srt (type_maps : TypeMaps) (timestamps : List Nat)
    (config : AppConfig) (merge_separator : Str)
    (show_lrc_type : ShowLrcType) (lyric_types : List LyricType) : Str :=
  pyStrip (pyJoin (pstr "\n")
    (srtLoop type_maps config merge_separator show_lrc_type lyric_types timestamps 1))

/-! ### `_render_output` and `build_output` (`lyrics.py`) -/

/-- The two runtime shapes of the `maps` argument of `_render_output`:
one single-track map (Isolated) or the per-type map dictionary; the
`isinstance` test at `lyrics.py` line 152 distinguishes exactly these
two shapes at the two call sites. -/
inductive MapsArg
  | single (m : TsMap)
  | multi (tm : TypeMaps)

/-- The timeline computed by `_render_output` (`lyrics.py` line 157:
`timestamps = _collect_timestamps(type_maps.values())`). -/
def renderTimestamps (type_maps : TypeMaps) : List Nat :=
  collect_timestamps (type_maps.map (fun p => p.2))

/-- `_render_output` (`lyrics.py` lines 144-164).  In the single-map
case the code wraps the map as `{lyric_types[0]: maps}`; `lyric_types`
is never empty at that call site (`build_output` passes `[lyric_type]`);
the unreachable empty case is modelled by the empty dictionary. -/
def render_output (maps : MapsArg) (output_format : OutputFormat)
    (config : AppConfig) (merge_separator : Str)
    (show_lrc_type : ShowLrcType) (lyric_types : List LyricType) : OutputPayload :=
  let type_maps : TypeMaps :=
    match maps with
    | .single m =>
      match lyric_types with
      | t :: _ => [(t, m)]
      | [] => []
    | .multi tm => tm
  let timestamps := renderTimestamps type_maps
  match output_format with
  | .srt =>
    ⟨render_srt type_maps timestamps config merge_separator show_lrc_type lyric_types,
      pstr "srt", config.output_encoding, none⟩
  | .lrc =>
    ⟨render_lrc type_maps timestamps config merge_separator show_lrc_type lyric_types,
      pstr "lrc", config.output_encoding, none⟩

/-- The per-type line maps built by `build_output` (`lyrics.py` lines
101-115), in dict-literal order: the Original track prefers the
verbatim blob when configured and non-empty, falling back to the
original blob when the verbatim parse yields nothing. -/
def lineMapsOf (lyrics : Lyrics) (config : AppConfig)
    (cap : Option (Str → List Str)) : TypeMaps :=
  let raw_original :=
    if config.prefer_verbatim ∧ lyrics.verbatim ≠ [] then lyrics.verbatim
    else lyrics.original
  let original_lines := parse_lrc raw_original config.ignore_empty_lines
  let original_lines :=
    if original_lines = [] ∧ raw_original ≠ lyrics.original then
      parse_lrc lyrics.original config.ignore_empty_lines
    else original_lines
  let translated_lines := parse_lrc lyrics.translated config.ignore_empty_lines
  let transliteration_lines := parse_lrc lyrics.transliteration config.ignore_empty_lines
  let pinyin_lines := build_pinyin_lines cap original_lines
  [ (LyricType.original, lines_to_map original_lines),
    (LyricType.translated, lines_to_map translated_lines),
    (LyricType.transliteration, lines_to_map transliteration_lines),
    (LyricType.pinyin, lines_to_map pinyin_lines) ]

/-- `build_output` (`lyrics.py` lines 90-141); `cap` models the
module-level optional `lazy_pinyin` import.  An empty `lyric_types`
defaults to `[Original]`; Isolated renders once per requested type over
that type's single map and stamps the payload suffix with the type
value; Stagger and Merge render once over the full per-type dictionary. -/
def build_output (lyrics : Lyrics) (config : AppConfig)
    (cap : Option (Str → List Str)) (lyric_types : List LyricType)
    (output_format : OutputFormat) (show_lrc_type : ShowLrcType)
    (merge_separator : Str) : List OutputPayload :=
  let lyric_types := if lyric_types = [] then [LyricType.original] else lyric_types
  let line_maps := lineMapsOf lyrics config cap
  if show_lrc_type = ShowLrcType.isolated then
    lyric_types.map (fun t =>
      let payload := render_output (.single (tmGet line_maps t)) output_format config
        merge_separator show_lrc_type [t]
      { payload with suffix := some t.value })
  else
    [render_output (.multi line_maps) output_format config merge_separator
      show_lrc_type lyric_types]

/-! ### Filename templating (`utils.py`) -/

/-- Characters of the reserved set replaced by `safe_filename`
(`utils.py` line 157, the class `\ / : * ? " < > |`). -/
def isReservedChar (c : Char) : Bool :=
  c = '\\' || c = '/' || c = ':' || c = '*' || c = '?' || c = '"' ||
  c = '<' || c = '>' || c = '|'

/-- `safe_filename` (`utils.py` lines 156-159): replace every reserved
character by `_`, strip, fall back to `"lyrics"` when empty. -/
def safe_filename (name : Str) : Str :=
  let name := name.map (fun c => if isReservedChar c then '_' else c)
  let name := pyStrip name
  if name = [] then pstr "lyrics" else name

/-- First pass of `render_filename` (`utils.py` lines 163-165): for
each token pair in order, replace every occurrence of the literal
pattern `$` `{` `key` `}` in the whole intermediate result. -/
def substituteTokens (template : Str) (tokens : List (Str × Str)) : Str :=
  tokens.foldl
    (fun result p => pyReplace result (pstr "$\x7b" ++ p.1 ++ pstr "\x7d") p.2)
    template

/-- Fuel-indexed scan for the matches of
`FILL_LENGTH_RE` (`utils.py` line 41), the pattern
`\$fillLength\(` `([^)]*)` `\)`: at each position where the literal
`$fillLength(` occurs, the group takes the characters up to the first
`)` (the greedy negated class cannot cross it) and the match requires
that `)`; scanning continues after the match.  Returns
(whole match, group) pairs.  One unit of fuel is spent per position, so
`fuel = l.length` is always sufficient. -/
def fillMatchesF : Nat → Str → List (Str × Str)
  | 0, _ => []
  | _ + 1, [] => []
  | fuel + 1, c :: rest =>
    if (pstr "$fillLength(").isPrefixOf (c :: rest) then
      let after := (c :: rest).drop 12
      let inner := after.takeWhile (fun x => x ≠ ')')
      match after.dropWhile (fun x => x ≠ ')') with
      | ')' :: r => (pstr "$fillLength(" ++ inner ++ pstr ")", inner) :: fillMatchesF fuel r
      | _ => fillMatchesF fuel rest
    else fillMatchesF fuel rest

/-- All matches of `FILL_LENGTH_RE` in a string, in order. -/
def fillMatches (l : Str) : List (Str × Str) := fillMatchesF l.length l

/-- Python `s.split(",")`; `acc` holds the current piece reversed. -/
def splitCommaAux : Str → Str → List Str
  | [], acc => [acc.reverse]
  | ',' :: rest, acc => acc.reverse :: splitCommaAux rest []
  | c :: rest, acc => splitCommaAux rest (c :: acc)

/-- Python `s.split(",")`. -/
def splitComma (l : Str) : List Str := splitCommaAux l []

/-- Python `int(s)` on an already stripped argument: an optional sign
followed by at least one digit (the underscore digit-group separator
accepted by CPython is not modelled; no claim depends on it). -/
def parseIntPy (s : Str) : Option Int :=
  let t := pyStrip s
  match t with
  | [] => none
  | '+' :: ds =>
    if ds ≠ [] ∧ ds.all Char.isDigit then some (Int.ofNat (digitsVal ds)) else none
  | '-' :: ds =>
    if ds ≠ [] ∧ ds.all Char.isDigit then some (-(Int.ofNat (digitsVal ds))) else none
  | ds =>
    if ds.all Char.isDigit then some (Int.ofNat (digitsVal ds)) else none

/-- One iteration of the `$fillLength` padding loop (`utils.py` lines
179-181): prepend the full symbol, or the prefix of the symbol sized to
the remaining deficit when the deficit is smaller. -/
def fillStep (target : Int) (symbol filled : Str) : Str :=
  let diff := target - Int.ofNat filled.length
  (if diff < Int.ofNat symbol.length then symbol.take diff.toNat else symbol) ++ filled

/-- Fuel-indexed model of the `while len(filled) < target_length` loop
of `render_filename`: `none` when the fuel is exhausted with the target
still unreached.  When the symbol is non-empty every step adds at least
one character, so `target.toNat` fuel suffices and `none` is returned
exactly on the inputs where the Python loop diverges (empty symbol and
content shorter than the target). -/
def fillLoopF : Nat → Int → Str → Str → Option Str
  | 0, target, _, filled =>
    if Int.ofNat filled.length < target then none else some filled
  | fuel + 1, target, symbol, filled =>
    if Int.ofNat filled.length < target then
      fillLoopF fuel target symbol (fillStep target symbol filled)
    else some filled

/-- `render_filename` (`utils.py` lines 162-185): token substitution,
then expansion of each `$fillLength(content, symbol, length)` directive
found in the substituted string (malformed argument lists and
non-integer lengths leave the directive untouched), then
`safe_filename`.  The result is `none` exactly when a directive makes
the Python padding loop diverge. -/
def render_filename (template : Str) (tokens : List (Str × Str)) : Option Str :=
  let result := substituteTokens template tokens
  let filled? := (fillMatches result).foldl
    (fun acc m =>
      acc.bind (fun r =>
        match (splitComma m.2).map pyStrip with
        | [content, symbol, length_str] =>
          match parseIntPy length_str with
          | none => some r
          | some target =>
            match fillLoopF target.toNat target symbol content with
            | none => none
            | some filled => some (pyReplace r m.1 filled)
        | _ => some r))
    (some result)
  filled?.map safe_filename

/-! ### Lemmas about the string primitives -/

theorem replaceF_fuel (f : Nat) : ∀ (g : Nat) (s old new : Str), s.length ≤ f →
    s.length ≤ g → replaceF f s old new = replaceF g s old new := by
  induction f with
  | zero =>
    intro g s old new hf _
    have hs : s = [] := List.eq_nil_of_length_eq_zero (Nat.le_zero.mp hf)
    subst hs
    cases g <;> rfl
  | succ f ih =>
    intro g s old new hf hg
    cases s with
    | nil => cases g <;> rfl
    | cons c rest =>
      cases g with
      | zero => simp at hg
      | succ g =>
        simp only [replaceF]
        by_cases h : old ≠ [] ∧ old.isPrefixOf (c :: rest)
        · simp only [if_pos h]
          have hold : 1 ≤ old.length := by
            cases old with
            | nil => exact absurd rfl h.1
            | cons _ _ => simp
          have hlf : ((c :: rest).drop old.length).length ≤ f := by
            simp only [List.length_drop, List.length_cons]
            simp only [List.length_cons] at hf
            omega
          have hlg : ((c :: rest).drop old.length).length ≤ g := by
            simp only [List.length_drop, List.length_cons]
            simp only [List.length_cons] at hg
            omega
          rw [ih g _ old new hlf hlg]
        · simp only [if_neg h]
          have hlf : rest.length ≤ f := by
            simp only [List.length_cons] at hf
            omega
          have hlg : rest.length ≤ g := by
            simp only [List.length_cons] at hg
            omega
          rw [ih g rest old new hlf hlg]

theorem pyReplace_nil (old new : Str) : pyReplace [] old new = [] := rfl

theorem pyReplace_hit (s old new : Str) (h1 : old ≠ []) (h2 : old.isPrefixOf s) :
    pyReplace s old new = new ++ pyReplace (s.drop old.length) old new := by
  cases s with
  | nil =>
    cases old with
    | nil => exact absurd rfl h1
    | cons _ _ => simp [List.isPrefixOf] at h2
  | cons c rest =>
    show replaceF (rest.length + 1) (c :: rest) old new = _
    simp only [replaceF, if_pos (And.intro h1 h2)]
    have hle : ((c :: rest).drop old.length).length ≤ rest.length := by
      have hold : 1 ≤ old.length := by
        cases old with
        | nil => exact absurd rfl h1
        | cons _ _ => simp
      simp only [List.length_drop, List.length_cons]
      omega
    rw [replaceF_fuel rest.length _ _ old new hle (Nat.le_refl _)]
    rfl

theorem pyReplace_miss (c : Char) (rest old new : Str)
    (h : ¬ old.isPrefixOf (c :: rest)) :
    pyReplace (c :: rest) old new = c :: pyReplace rest old new := by
  have hcond : ¬ (old ≠ [] ∧ old.isPrefixOf (c :: rest)) := fun hc => h hc.2
  show replaceF (rest.length + 1) (c :: rest) old new = _
  simp only [replaceF, if_neg hcond]
  rfl

theorem pyReplace_skip (v : Str) (rest : Str) (h0 : Char) (t new : Str)
    (hv : ∀ c ∈ v, c ≠ h0) :
    pyReplace (v ++ rest) (h0 :: t) new = v ++ pyReplace rest (h0 :: t) new := by
  induction v with
  | nil => simp
  | cons c v ih =>
    have hc : c ≠ h0 := hv c (List.mem_cons_self c v)
    have hne : ¬ (h0 :: t).isPrefixOf (c :: (v ++ rest)) := by
      intro hp
      rw [List.isPrefixOf_iff_prefix] at hp
      rw [List.cons_prefix_cons] at hp
      exact hc hp.1.symm
    rw [List.cons_append, pyReplace_miss _ _ _ _ hne,
      ih (fun x hx => hv x (List.mem_cons_of_mem c hx))]
    rfl

theorem pyReplace_no_head (v : Str) (h0 : Char) (t new : Str)
    (hv : ∀ c ∈ v, c ≠ h0) : pyReplace v (h0 :: t) new = v := by
  have h := pyReplace_skip v [] h0 t new hv
  simpa [pyReplace_nil] using h

theorem pyReplace_self (old new : Str) (h : old ≠ []) :
    pyReplace old old new = new := by
  have hp : old.isPrefixOf old := by
    rw [List.isPrefixOf_iff_prefix]
  rw [pyReplace_hit old old new h hp, List.drop_length, pyReplace_nil,
    List.append_nil]

/-- Accumulating conditional-append loops are filter maps. -/
theorem foldl_opt_append {α β : Type} (f : α → Option β) :
    ∀ (l : List α) (init : List β),
      l.foldl (fun acc x => acc ++ (f x).toList) init = init ++ l.filterMap f := by
  intro l
  induction l with
  | nil => intro init; simp
  | cons a l ih =>
    intro init
    rw [List.foldl_cons, ih, List.filterMap_cons]
    cases hfa : f a with
    | none => simp [hfa]
    | some y => simp [hfa]

/-! ### Stability of the sorts used to model Python `sorted` -/

theorem filter_orderedInsert {α : Type} (r : α → α → Prop) [DecidableRel r]
    (key : α → Nat) (hr : ∀ a b, r a b ↔ key a ≤ key b) (a : α) (t : Nat) :
    ∀ l : List α,
      (List.orderedInsert r a l).filter (fun x => key x == t)
        = if key a = t then a :: l.filter (fun x => key x == t)
          else l.filter (fun x => key x == t) := by
  intro l
  induction l with
  | nil =>
    by_cases h : key a = t <;> simp [List.orderedInsert, List.filter_cons, h]
  | cons b l ih =>
    simp only [List.orderedInsert]
    by_cases hab : r a b
    · rw [if_pos hab]
      by_cases h : key a = t <;> simp [List.filter_cons, h]
    · rw [if_neg hab]
      have hblta : key b < key a := by
        have := (hr a b).not.mp hab
        omega
      by_cases h : key a = t
      · have hb : ¬ (key b = t) := by omega
        simp [List.filter_cons, hb, ih, h]
      · by_cases hb : key b = t <;> simp [List.filter_cons, hb, ih, h]

theorem filter_insertionSort {α : Type} (r : α → α → Prop) [DecidableRel r]
    (key : α → Nat) (hr : ∀ a b, r a b ↔ key a ≤ key b) (t : Nat) :
    ∀ l : List α,
      (List.insertionSort r l).filter (fun x => key x == t)
        = l.filter (fun x => key x == t) := by
  intro l
  induction l with
  | nil => rfl
  | cons a l ih =>
    simp only [List.insertionSort]
    rw [filter_orderedInsert r key hr a t]
    by_cases h : key a = t <;> simp [List.filter_cons, h, ih]

/-! ### Lemmas about decimal digits -/

theorem digitVal_digitChar (d : Nat) (h : d < 10) : digitVal (digitChar d) = d := by
  interval_cases d <;> rfl

theorem isDigit_digitChar (d : Nat) (h : d < 10) : (digitChar d).isDigit = true := by
  interval_cases d <;> rfl

theorem isDigit_ne (c x : Char) (h : c.isDigit = true) (hx : x.isDigit = false) :
    c ≠ x := by
  intro e
  rw [e, hx] at h
  cases h

theorem natDigitsF_small (f n : Nat) (hf : 0 < f) (h : n < 10) :
    natDigitsF f n = [digitChar n] := by
  cases f with
  | zero => omega
  | succ f => simp [natDigitsF, h]

theorem natDigits_one (n : Nat) (h : n < 10) : natDigits n = [digitChar n] :=
  natDigitsF_small (n + 1) n (Nat.succ_pos n) h

theorem natDigits_two (n : Nat) (h1 : 10 ≤ n) (h2 : n < 100) :
    natDigits n = [digitChar (n / 10), digitChar (n % 10)] := by
  show natDigitsF (n + 1) n = _
  cases n with
  | zero => omega
  | succ m =>
    simp only [natDigitsF, if_neg (by omega : ¬ m + 1 < 10)]
    rw [if_pos (by omega : (m + 1) / 10 < 10)]
    rfl

theorem natDigits_three (n : Nat) (h1 : 100 ≤ n) (h2 : n < 1000) :
    natDigits n = [digitChar (n / 100), digitChar (n / 10 % 10), digitChar (n % 10)] := by
  show natDigitsF (n + 1) n = _
  cases n with
  | zero => omega
  | succ m =>
    simp only [natDigitsF, if_neg (by omega : ¬ m + 1 < 10)]
    cases m with
    | zero => omega
    | succ k =>
      simp only [natDigitsF, if_neg (by omega : ¬ (k + 1 + 1) / 10 < 10)]
      rw [if_pos (by omega : (k + 1 + 1) / 10 / 10 < 10)]
      rw [Nat.div_div_eq_div_mul]
      rfl

theorem zfill_two (n : Nat) (h : n < 100) :
    zfill 2 (natDigits n) = [digitChar (n / 10), digitChar (n % 10)] := by
  by_cases h1 : n < 10
  · rw [natDigits_one n h1]
    show List.replicate 1 '0' ++ [digitChar n] = _
    rw [Nat.div_eq_of_lt h1, Nat.mod_eq_of_lt h1]
    rfl
  · rw [natDigits_two n (by omega) h]
    rfl

theorem zfill_three (n : Nat) (h : n < 1000) :
    zfill 3 (natDigits n) =
      [digitChar (n / 100), digitChar (n / 10 % 10), digitChar (n % 10)] := by
  by_cases h1 : n < 10
  · rw [natDigits_one n h1]
    show List.replicate 2 '0' ++ [digitChar n] = _
    rw [Nat.div_eq_of_lt (by omega : n < 100), Nat.div_eq_of_lt h1,
      Nat.mod_eq_of_lt h1]
    rfl
  · by_cases h2 : n < 100
    · rw [natDigits_two n (by omega) h2]
      show List.replicate 1 '0' ++ _ = _
      rw [Nat.div_eq_of_lt h2, Nat.mod_eq_of_lt (by omega : n / 10 < 10)]
      rfl
    · rw [natDigits_three n (by omega) h]
      rfl

theorem digitsVal_two (a b : Nat) (ha : a < 10) (hb : b < 10) :
    digitsVal [digitChar a, digitChar b] = a * 10 + b := by
  show (0 * 10 + digitVal (digitChar a)) * 10 + digitVal (digitChar b) = _
  rw [digitVal_digitChar a ha, digitVal_digitChar b hb]
  omega

theorem digitsVal_three (a b c : Nat) (ha : a < 10) (hb : b < 10) (hc : c < 10) :
    digitsVal [digitChar a, digitChar b, digitChar c] = (a * 10 + b) * 10 + c := by
  show ((0 * 10 + digitVal (digitChar a)) * 10 + digitVal (digitChar b)) * 10
      + digitVal (digitChar c) = _
  rw [digitVal_digitChar a ha, digitVal_digitChar b hb, digitVal_digitChar c hc]
  omega

/-! ### Maximal-run lemmas for the scanner -/

theorem takeWhile_run (p : Char → Bool) (v : Str) (x : Char) (rest : Str)
    (hv : ∀ c ∈ v, p c = true) (hx : p x = false) :
    (v ++ x :: rest).takeWhile p = v := by
  induction v with
  | nil => simp [List.takeWhile_cons, hx]
  | cons c v ih =>
    have hc := hv c (List.mem_cons_self c v)
    simp [List.cons_append, List.takeWhile_cons, hc,
      ih (fun d hd => hv d (List.mem_cons_of_mem c hd))]

theorem dropWhile_run (p : Char → Bool) (v : Str) (x : Char) (rest : Str)
    (hv : ∀ c ∈ v, p c = true) (hx : p x = false) :
    (v ++ x :: rest).dropWhile p = x :: rest := by
  induction v with
  | nil => simp [List.dropWhile_cons, hx]
  | cons c v ih =>
    have hc := hv c (List.mem_cons_self c v)
    simp [List.cons_append, List.dropWhile_cons, hc,
      ih (fun d hd => hv d (List.mem_cons_of_mem c hd))]

theorem matchRun_run (maxLen : Nat) (v : Str) (x : Char) (rest : Str)
    (hv : ∀ c ∈ v, c.isDigit = true) (hx : x.isDigit = false)
    (h1 : v.length ≠ 0) (h2 : ¬ maxLen < v.length) :
    matchRun maxLen (v ++ x :: rest) = some (v, x :: rest) := by
  unfold matchRun
  rw [takeWhile_run Char.isDigit v x rest hv hx,
    dropWhile_run Char.isDigit v x rest hv hx]
  simp [h1, h2]

/-! ### Evaluating `format_timestamp` on the template `mm:ss.SSS` -/

theorem replace_chain (MM SEC MS X Y Z : Str)
    (hMM : ∀ c ∈ MM, c.isDigit = true) (hSEC : ∀ c ∈ SEC, c.isDigit = true)
    (hMS : ∀ c ∈ MS, c.isDigit = true) :
    pyReplace (pyReplace (pyReplace (pyReplace (pyReplace (pyReplace
        ['m', 'm', ':', 's', 's', '.', 'S', 'S', 'S'] ['H', 'H'] X)
        ['m', 'm'] MM) ['s', 's'] SEC) ['S', 'S', 'S'] MS) ['S', 'S'] Y) ['S'] Z
      = MM ++ ':' :: (SEC ++ '.' :: MS) := by
  have s1 : pyReplace ['m', 'm', ':', 's', 's', '.', 'S', 'S', 'S'] ['H', 'H'] X
      = ['m', 'm', ':', 's', 's', '.', 'S', 'S', 'S'] :=
    pyReplace_no_head _ 'H' ['H'] X (by decide)
  have s2 : pyReplace ['m', 'm', ':', 's', 's', '.', 'S', 'S', 'S'] ['m', 'm'] MM
      = MM ++ [':', 's', 's', '.', 'S', 'S', 'S'] := by
    rw [pyReplace_hit _ _ _ (by decide) (by decide)]
    show MM ++ pyReplace [':', 's', 's', '.', 'S', 'S', 'S'] ['m', 'm'] MM = _
    rw [pyReplace_no_head _ 'm' ['m'] MM (by decide)]
  have s3 : pyReplace (MM ++ [':', 's', 's', '.', 'S', 'S', 'S']) ['s', 's'] SEC
      = MM ++ ':' :: (SEC ++ ['.', 'S', 'S', 'S']) := by
    rw [pyReplace_skip MM [':', 's', 's', '.', 'S', 'S', 'S'] 's' ['s'] SEC
      (fun c hc => isDigit_ne c 's' (hMM c hc) (by decide))]
    rw [pyReplace_miss ':' ['s', 's', '.', 'S', 'S', 'S'] ['s', 's'] SEC (by decide)]
    rw [pyReplace_hit ['s', 's', '.', 'S', 'S', 'S'] ['s', 's'] SEC (by decide) (by decide)]
    show MM ++ ':' :: (SEC ++ pyReplace ['.', 'S', 'S', 'S'] ['s', 's'] SEC) = _
    rw [pyReplace_no_head ['.', 'S', 'S', 'S'] 's' ['s'] SEC (by decide)]
  have e4 : MM ++ ':' :: (SEC ++ ['.', 'S', 'S', 'S'])
      = (MM ++ ':' :: SEC) ++ '.' :: ['S', 'S', 'S'] := by simp
  have hMMc : ∀ c ∈ MM ++ ':' :: SEC, c ≠ 'S' := by
    intro c hc
    rcases List.mem_append.mp hc with h1 | h2
    · exact isDigit_ne c 'S' (hMM c h1) (by decide)
    · rcases List.mem_cons.mp h2 with h3 | h4
      · subst h3; decide
      · exact isDigit_ne c 'S' (hSEC c h4) (by decide)
  have s4 : pyReplace (MM ++ ':' :: (SEC ++ ['.', 'S', 'S', 'S'])) ['S', 'S', 'S'] MS
      = MM ++ ':' :: (SEC ++ '.' :: MS) := by
    rw [e4, pyReplace_skip (MM ++ ':' :: SEC) ('.' :: ['S', 'S', 'S']) 'S'
      ['S', 'S'] MS hMMc]
    rw [pyReplace_miss '.' ['S', 'S', 'S'] ['S', 'S', 'S'] MS (by decide)]
    rw [pyReplace_self ['S', 'S', 'S'] MS (by decide)]
    simp
  have hAll : ∀ c ∈ MM ++ ':' :: (SEC ++ '.' :: MS), c ≠ 'S' := by
    intro c hc
    rcases List.mem_append.mp hc with h1 | h2
    · exact isDigit_ne c 'S' (hMM c h1) (by decide)
    · rcases List.mem_cons.mp h2 with h3 | h4
      · subst h3; decide
      · rcases List.mem_append.mp h4 with h5 | h6
        · exact isDigit_ne c 'S' (hSEC c h5) (by decide)
        · rcases List.mem_cons.mp h6 with h7 | h8
          · subst h7; decide
          · exact isDigit_ne c 'S' (hMS c h8) (by decide)
  have s5 : pyReplace (MM ++ ':' :: (SEC ++ '.' :: MS)) ['S', 'S'] Y
      = MM ++ ':' :: (SEC ++ '.' :: MS) :=
    pyReplace_no_head _ 'S' ['S'] Y hAll
  have s6 : pyReplace (MM ++ ':' :: (SEC ++ '.' :: MS)) ['S'] Z
      = MM ++ ':' :: (SEC ++ '.' :: MS) :=
    pyReplace_no_head _ 'S' [] Z hAll
  rw [s1, s2, s3, s4, s5, s6]

theorem format_mm_ss_SSS (m : Nat) :
    format_timestamp m (pstr "mm:ss.SSS")
      = zfill 2 (natDigits (m / 1000 % 3600 / 60)) ++ ':' ::
        (zfill 2 (natDigits (m / 1000 % 60)) ++ '.' :: zfill 3 (natDigits (m % 1000))) := by
  have key := replace_chain
    (zfill 2 (natDigits (m / 1000 % 3600 / 60)))
    (zfill 2 (natDigits (m / 1000 % 60)))
    (zfill 3 (natDigits (m % 1000)))
    (zfill 2 (natDigits (m / 1000 / 3600)))
    (zfill 2 (natDigits (m % 1000 / 10)))
    (natDigits (m % 1000 / 100))
    (by
      rw [zfill_two _ (by omega)]
      intro c hc
      rcases List.mem_cons.mp hc with h1 | h2
      · subst h1; exact isDigit_digitChar _ (by omega)
      · rcases List.mem_cons.mp h2 with h3 | h4
        · subst h3; exact isDigit_digitChar _ (by omega)
        · simp at h4)
    (by
      rw [zfill_two _ (by omega)]
      intro c hc
      rcases List.mem_cons.mp hc with h1 | h2
      · subst h1; exact isDigit_digitChar _ (by omega)
      · rcases List.mem_cons.mp h2 with h3 | h4
        · subst h3; exact isDigit_digitChar _ (by omega)
        · simp at h4)
    (by
      rw [zfill_three _ (by omega)]
      intro c hc
      rcases List.mem_cons.mp hc with h1 | h2
      · subst h1; exact isDigit_digitChar _ (by omega)
      · rcases List.mem_cons.mp h2 with h3 | h4
        · subst h3; exact isDigit_digitChar _ (by omega)
        · rcases List.mem_cons.mp h4 with h5 | h6
          · subst h5; exact isDigit_digitChar _ (by omega)
          · simp at h6)
  unfold format_timestamp
  simp only [List.foldl_cons, List.foldl_nil]
  have htmpl : pstr "mm:ss.SSS" = ['m', 'm', ':', 's', 's', '.', 'S', 'S', 'S'] := rfl
  have hHH : pstr "HH" = ['H', 'H'] := rfl
  have hmm2 : pstr "mm" = ['m', 'm'] := rfl
  have hss2 : pstr "ss" = ['s', 's'] := rfl
  have hS3 : pstr "SSS" = ['S', 'S', 'S'] := rfl
  have hS2 : pstr "SS" = ['S', 'S'] := rfl
  have hS1 : pstr "S" = ['S'] := rfl
  rw [htmpl, hHH, hmm2, hss2, hS3, hS2, hS1]
  exact key

theorem tryTag_digits (D1 D2 D3 : Str)
    (h1 : ∀ c ∈ D1, c.isDigit = true) (l1 : D1.length = 2)
    (h2 : ∀ c ∈ D2, c.isDigit = true) (l2 : D2.length = 2)
    (h3 : ∀ c ∈ D3, c.isDigit = true) (l3 : D3.length = 3) :
    tryTag ('[' :: (D1 ++ ':' :: (D2 ++ '.' :: (D3 ++ [']']))))
      = some (⟨D1, D2, some D3⟩, ([] : Str)) := by
  have m1 := matchRun_run 2 D1 ':' (D2 ++ '.' :: (D3 ++ [']'])) h1 (by decide)
    (by omega) (by omega)
  have m2 := matchRun_run 2 D2 '.' (D3 ++ [']']) h2 (by decide) (by omega) (by omega)
  have m3 := matchRun_run 3 D3 ']' [] h3 (by decide) (by omega) (by omega)
  simp only [tryTag, m1, m2, m3]

/-- C5 (amended): the round trip holds for every millisecond value below
one hour: for `m < 3600000`, `parseTag (format_timestamp m "mm:ss.SSS") = m`.
The template `mm:ss.SSS` carries no hours token, so formatting discards
whole hours and the round trip fails at and above 3600000 ms
(`C5_counterexample`). -/
theorem C5_theorem (m : Nat) (h : m < 3600000) :
    parseTag (format_timestamp m (pstr "mm:ss.SSS")) = some m := by
  rw [format_mm_ss_SSS m]
  rw [zfill_two _ (by omega : m / 1000 % 3600 / 60 < 100),
      zfill_two _ (by omega : m / 1000 % 60 < 100),
      zfill_three _ (by omega : m % 1000 < 1000)]
  have ht := tryTag_digits
    [digitChar (m / 1000 % 3600 / 60 / 10), digitChar (m / 1000 % 3600 / 60 % 10)]
    [digitChar (m / 1000 % 60 / 10), digitChar (m / 1000 % 60 % 10)]
    [digitChar (m % 1000 / 100), digitChar (m % 1000 / 10 % 10), digitChar (m % 1000 % 10)]
    (by
      intro c hc
      rcases List.mem_cons.mp hc with h1 | h2
      · subst h1; exact isDigit_digitChar _ (by omega)
      · rcases List.mem_cons.mp h2 with h3 | h4
        · subst h3; exact isDigit_digitChar _ (by omega)
        · simp at h4)
    rfl
    (by
      intro c hc
      rcases List.mem_cons.mp hc with h1 | h2
      · subst h1; exact isDigit_digitChar _ (by omega)
      · rcases List.mem_cons.mp h2 with h3 | h4
        · subst h3; exact isDigit_digitChar _ (by omega)
        · simp at h4)
    rfl
    (by
      intro c hc
      rcases List.mem_cons.mp hc with h1 | h2
      · subst h1; exact isDigit_digitChar _ (by omega)
      · rcases List.mem_cons.mp h2 with h3 | h4
        · subst h3; exact isDigit_digitChar _ (by omega)
        · rcases List.mem_cons.mp h4 with h5 | h6
          · subst h5; exact isDigit_digitChar _ (by omega)
          · simp at h6)
    rfl
  unfold parseTag
  simp only [List.cons_append, List.append_assoc, List.nil_append] at ht ⊢
  rw [ht]
  show some (tagMs ⟨_, _, some _⟩) = some m
  unfold tagMs
  simp only [Option.getD_some, ljustZero]
  rw [digitsVal_two _ _ (by omega) (by omega), digitsVal_two _ _ (by omega) (by omega)]
  show some ((_ * 60 + _) * 1000
    + digitsVal (List.take 3 ([digitChar (m % 1000 / 100), digitChar (m % 1000 / 10 % 10),
        digitChar (m % 1000 % 10)] ++ List.replicate _ '0'))) = some m
  rw [show (3 : Nat) - ([digitChar (m % 1000 / 100), digitChar (m % 1000 / 10 % 10),
        digitChar (m % 1000 % 10)] : Str).length = 0 from rfl]
  simp only [List.replicate, List.append_nil, List.take]
  rw [digitsVal_three _ _ _ (by omega) (by omega) (by omega)]
  congr 1
  omega

/-- C5 witness: the round trip at the concrete value 61234 ms. -/
theorem C5_witness :
    61234 < 3600000 ∧ parseTag (format_timestamp 61234 (pstr "mm:ss.SSS")) = some 61234 :=
  ⟨by omega, C5_theorem 61234 (by omega)⟩

/-- C5 counterexample: at `m = 3600000` (one hour, exact at 3-digit
fraction precision) the format template `mm:ss.SSS` yields `00:00.000`,
which parses back to 0, not 3600000 — the claim as stated is false. -/
theorem C5_counterexample :
    parseTag (format_timestamp 3600000 (pstr "mm:ss.SSS")) = some 0 ∧
      (some 3600000 : Option Nat) ≠ some 0 := by
  constructor
  · decide
  · decide

/-! ### Concrete fixtures shared by the counterexamples -/

/-- A concrete configuration for the counterexamples: `ignore_empty_lines`
off, the default timestamp templates of `config.py`. -/
def exampleConfig : AppConfig :=
  ⟨false, false, pstr "utf-8", pstr "[mm:ss.SSS]", pstr "HH:mm:ss,SSS"⟩

/-- A per-type map dictionary whose only timestamp, 1000 ms, belongs to
the Translated track alone. -/
def c2ExampleMaps : TypeMaps :=
  [ (LyricType.original, ([] : TsMap)),
    (LyricType.translated, [(1000, pstr "B")]),
    (LyricType.transliteration, ([] : TsMap)),
    (LyricType.pinyin, ([] : TsMap)) ]

/-- C1 (amended): in CueBlocks (SRT) output the end timestamp of the cue
at timeline position `i` is the next distinct timestamp `ts_{i+1}` itself
— with no 1 ms subtraction — and `ts_i + 2000` for the last position.
`srtEnd` is the end-time computation of `_render_srt` (line 203), which
`srtLoop` applies to every timeline position `i` with the remaining
timeline `l.drop (i+1)`; this theorem restates it positionally:
`timestamps[i+1]` when `i+1` is in range, `timestamps[i] + 2000`
otherwise. -/
theorem C1_theorem (l : List Nat) (i : Nat) (h : i < l.length) :
    srtEnd (l.getD i 0) (l.drop (i + 1)) = l.getD (i + 1) (l.getD i 0 + 2000) := by
  induction l generalizing i with
  | nil => simp at h
  | cons x xs ih =>
    cases i with
    | zero =>
      cases xs with
      | nil => rfl
      | cons y ys => rfl
    | succ j =>
      have hj : j < xs.length := by simpa using h
      simpa [List.getD_cons_succ] using ih j hj

/-- C1 witness: the first cue of the timeline `[1000, 1800, 5000]` ends
at 1800. -/
theorem C1_witness :
    0 < [1000, 1800, 5000].length ∧
      srtEnd ([1000, 1800, 5000].getD 0 0) ([1000, 1800, 5000].drop 1)
        = [1000, 1800, 5000].getD 1 ([1000, 1800, 5000].getD 0 0 + 2000) :=
  ⟨by decide, C1_theorem [1000, 1800, 5000] 0 (by decide)⟩

/-- C1 counterexample: on the spec's own example timeline
`[1000, 1800, 5000]` the code ends the first cue at 1800, not at the
claimed `1799 = ts_1 - 1`; the fully rendered SRT document shows the
cue boundaries `1000 --> 1800`, `1800 --> 5000`, `5000 --> 7000`. -/
theorem C1_counterexample :
    srtEnd 1000 [1800, 5000] = 1800 ∧ (1800 : Nat) ≠ 1799 ∧
      render_srt [(LyricType.original, [(1000, pstr "a"), (1800, pstr "b"), (5000, pstr "c")])]
        [1000, 1800, 5000] exampleConfig (pstr " / ") ShowLrcType.stagger [LyricType.original]
      = pstr "1\n00:00:01,000 --> 00:00:01,800\na\n\n2\n00:00:01,800 --> 00:00:05,000\nb\n\n3\n00:00:05,000 --> 00:00:07,000\nc" := by
  refine ⟨rfl, by decide, ?_⟩
  decide

/-- C2 (amended): the timeline `_render_output` iterates is the
ascending, duplicate-free union of the keys of every map in the
`type_maps` dictionary it receives: under Stagger and Merge,
`build_output` passes the dictionary of all four tracks, so the timeline
is the union over all four maps regardless of `output_tracks`, and a
timestamp present only in an unselected track does appear on it
(`C2_counterexample`). -/
theorem C2_theorem : ∀ tm : TypeMaps,
    (renderTimestamps tm).Sorted (fun a b => a ≤ b) ∧
    (renderTimestamps tm).Nodup ∧
    (∀ t : Nat, t ∈ renderTimestamps tm ↔ ∃ ty m, (ty, m) ∈ tm ∧ ∃ v, (t, v) ∈ m) := by
  intro tm
  refine ⟨?_, ?_, ?_⟩
  · exact List.sorted_insertionSort _ _
  · exact ((List.perm_insertionSort _ _).symm).nodup (List.nodup_dedup _)
  · intro t
    simp only [renderTimestamps, collect_timestamps, List.mem_insertionSort,
      List.mem_dedup, List.mem_flatMap, List.mem_map, mapKeys]
    constructor
    · rintro ⟨ks, ⟨p, hp, rfl⟩, a, ha, rfl⟩
      exact ⟨p.1, p.2, by simpa using hp, a.2, by simpa using ha⟩
    · rintro ⟨ty, m, hm, v, hv⟩
      exact ⟨m, ⟨(ty, m), hm, rfl⟩, (t, v), hv, rfl⟩

/-- C2 counterexample: with the Original track empty, the Translated map
`{1000: "B"}` and `output_tracks = [Original]`, the renderer's timeline
is `[1000]` while the union of the selected tracks' keys is empty; the
claim as stated is false, and observably so: with `ignore_empty_lines`
off, Stagger LRC output emits the row `[00:01.000]` at the timestamp
contributed only by the unselected Translated track. -/
theorem C2_counterexample :
    renderTimestamps c2ExampleMaps = [1000] ∧
    collect_timestamps [tmGet c2ExampleMaps LyricType.original] = [] ∧
    ([1000] : List Nat) ≠ [] ∧
    (render_output (MapsArg.multi c2ExampleMaps) OutputFormat.lrc exampleConfig
      (pstr " / ") ShowLrcType.stagger [LyricType.original]).content = pstr "[00:01.000]" ∧
    pstr "[00:01.000]" ≠ [] := by
  refine ⟨by decide, by decide, by decide, by decide, by decide⟩

/-- C3 (amended): token substitution in `render_filename` is a sequence
of whole-string replacements, one per token in caller order, each
applied to the entire intermediate result — including text substituted
by earlier tokens.  Hence an embedded `$`-brace pattern naming a LATER
token is expanded by that later token's pass (only patterns naming
already-processed tokens stay literal): substituting the token list
`[(a, "$\x7bb\x7d"), (b, w)]` into the template `$\x7ba\x7d` yields `w`,
not the literal text `$\x7bb\x7d` the claim predicts. -/
theorem C3_theorem (a b w : Str) :
    substituteTokens (pstr "$\x7b" ++ a ++ pstr "\x7d")
      [(a, pstr "$\x7b" ++ b ++ pstr "\x7d"), (b, w)] = w := by
  simp only [substituteTokens, List.foldl_cons, List.foldl_nil]
  rw [pyReplace_self _ _ (by simp [pstr]), pyReplace_self _ _ (by simp [pstr])]

/-- C3 counterexample: with tokens `a -> "$\x7bb\x7d"` then `b -> "X"`,
the first pass turns `$\x7ba\x7d` into `X`: the embedded `$\x7bb\x7d`
pattern introduced by the first token is expanded by the second token's
substitution instead of remaining literally in the output, and the full
`render_filename` returns `X`. -/
theorem C3_counterexample :
    substituteTokens (pstr "$\x7ba\x7d")
        [(pstr "a", pstr "$\x7bb\x7d"), (pstr "b", pstr "X")] = pstr "X" ∧
      pstr "X" ≠ pstr "$\x7bb\x7d" ∧
      render_filename (pstr "$\x7ba\x7d")
        [(pstr "a", pstr "$\x7bb\x7d"), (pstr "b", pstr "X")] = some (pstr "X") := by
  refine ⟨by decide, by decide, by decide⟩

/-- C4: the claim (and the spec) say filename rendering always
terminates, but the `$fillLength` padding loop of `render_filename`
diverges when the fill symbol is empty and the content is shorter than
the target: each iteration prepends the empty symbol and makes no
progress.  At the directive `$fillLength(a,,5)` the loop state never
reaches the target for any number of iterations (first conjunct: the
fuel-indexed loop returns `none` at every fuel), so the model of
`render_filename` returns `none` — the diverging run — on that template
(second conjunct). -/
theorem C4_theorem :
    (∀ fuel : Nat, fillLoopF fuel 5 [] (pstr "a") = none) ∧
      render_filename (pstr "$fillLength(a,,5)") [] = none := by
  constructor
  · intro fuel
    induction fuel with
    | zero => rfl
    | succ f ih =>
      show fillLoopF (f + 1) 5 [] (pstr "a") = none
      simp only [fillLoopF]
      rw [if_pos (by decide)]
      rw [show fillStep 5 [] (pstr "a") = pstr "a" from rfl]
      exact ih
  · decide

/-- Helper: `parse_lrc` is the stable sort of the per-line emission
sequence (the empty-text guard of the source collapses into the same
expression, since an empty blob splits into no lines). -/
theorem parse_lrc_eq (text : Str) (ig : Bool) :
    parse_lrc text ig = lyricSort ((pySplitlines text).flatMap (parseLrcLine ig)) := by
  unfold parse_lrc
  by_cases h : text = []
  · subst h
    rfl
  · rw [if_neg h]

/-- C6: `parse_lrc` emits, per physical line, one `LyricLine` per matched
tag — all carrying the same tag-stripped, whitespace-trimmed content, in
tag order — drops lines with zero tags, and drops every tag of a line
whose stripped content is empty when `ignore_empty` is set (first
conjunct, the per-line emission shape); the returned sequence is a
permutation of that line-by-line emission (second conjunct), sorted
ascending by `timestamp_ms` (third conjunct), and stably so: at every
fixed timestamp the entries appear exactly in emission order — line
order, then tag order (fourth conjunct). -/
theorem C6_theorem (text : Str) (ig : Bool) :
    (∀ l : Str, parseLrcLine ig l =
      if (scanTags l).1 = [] then []
      else if ig ∧ pyStrip (scanTags l).2 = [] then []
      else (scanTags l).1.map (fun m => ⟨tagMs m, pyStrip (scanTags l).2⟩)) ∧
    List.Perm (parse_lrc text ig) ((pySplitlines text).flatMap (parseLrcLine ig)) ∧
    (parse_lrc text ig).Sorted (fun a b => a.timestamp_ms ≤ b.timestamp_ms) ∧
    (∀ t : Nat, (parse_lrc text ig).filter (fun ln => ln.timestamp_ms == t)
      = ((pySplitlines text).flatMap (parseLrcLine ig)).filter
          (fun ln => ln.timestamp_ms == t)) := by
  refine ⟨fun l => rfl, ?_, ?_, ?_⟩
  · rw [parse_lrc_eq]
    exact List.perm_insertionSort lyricLe _
  · rw [parse_lrc_eq]
    exact List.sorted_insertionSort lyricLe _
  · intro t
    rw [parse_lrc_eq]
    exact filter_insertionSort lyricLe LyricLine.timestamp_ms (fun a b => Iff.rfl) t _

/-- C7: under the Merge policy the primary (LRC) renderer emits, for each
timeline timestamp, exactly one combined row whose text is the requested
tracks' texts in order — empty texts omitted when `ignore_empty_lines` —
joined with the merge separator and whitespace-trimmed, and no row at all
when that trimmed result is empty: the imperative row loop equals the
filter map of that per-timestamp row function. -/
theorem C7_theorem (tm : TypeMaps) (timestamps : List Nat) (config : AppConfig)
    (sep : Str) (types : List LyricType) :
    render_lrc tm timestamps config sep ShowLrcType.merge types
      = pyJoin (pstr "\n") (timestamps.filterMap (fun ts =>
          let merged := pyStrip (pyJoin sep (types.filterMap (fun t =>
            let text := mapGet (tmGet tm t) ts
            if config.ignore_empty_lines ∧ text = [] then none else some text)))
          if merged = [] then none
          else some (format_timestamp ts config.lrc_timestamp_format ++ merged))) := by
  have hmerge : ∀ ts : Nat,
      merge_texts tm types ts sep config.ignore_empty_lines
        = pyStrip (pyJoin sep (types.filterMap (fun t =>
            let text := mapGet (tmGet tm t) ts
            if config.ignore_empty_lines ∧ text = [] then none else some text))) := by
    intro ts
    unfold merge_texts
    have hf : (fun (parts : List Str) (t : LyricType) =>
        let text := mapGet (tmGet tm t) ts
        if config.ignore_empty_lines ∧ text = [] then parts else parts ++ [text])
      = (fun parts t =>
        parts ++ (let text := mapGet (tmGet tm t) ts
               if config.ignore_empty_lines ∧ text = [] then none else some text).toList) := by
      funext parts t
      by_cases hc : config.ignore_empty_lines ∧ mapGet (tmGet tm t) ts = []
        <;> simp [hc, Option.toList]
    rw [hf]
    have h2 := foldl_opt_append (fun t : LyricType =>
        let text := mapGet (tmGet tm t) ts
        if config.ignore_empty_lines ∧ text = [] then none else some text) types []
    rw [List.nil_append] at h2
    rw [h2]
  unfold render_lrc
  have hrows : (fun (lines : List Str) (ts : Nat) =>
      if ShowLrcType.merge = ShowLrcType.merge then
        let merged := merge_texts tm types ts sep config.ignore_empty_lines
        if merged = [] then lines
        else lines ++ [format_timestamp ts config.lrc_timestamp_format ++ merged]
      else
        types.foldl (fun lines t =>
          let text := mapGet (tmGet tm t) ts
          if config.ignore_empty_lines ∧ text = [] then lines
          else lines ++ [format_timestamp ts config.lrc_timestamp_format ++ text]) lines)
    = (fun lines ts =>
        lines ++ (let merged := pyStrip (pyJoin sep (types.filterMap (fun t =>
            let text := mapGet (tmGet tm t) ts
            if config.ignore_empty_lines ∧ text = [] then none else some text)))
          if merged = [] then none
          else some (format_timestamp ts config.lrc_timestamp_format ++ merged)).toList) := by
    funext lines ts
    simp only [if_pos rfl, hmerge ts]
    by_cases hm : pyStrip (pyJoin sep (types.filterMap (fun t =>
        let text := mapGet (tmGet tm t) ts
        if config.ignore_empty_lines ∧ text = [] then none else some text))) = []
      <;> simp [hm, Option.toList]
  rw [hrows]
  have h3 := foldl_opt_append (fun ts : Nat =>
      let merged := pyStrip (pyJoin sep (types.filterMap (fun t =>
        let text := mapGet (tmGet tm t) ts
        if config.ignore_empty_lines ∧ text = [] then none else some text)))
      if merged = [] then none
      else some (format_timestamp ts config.lrc_timestamp_format ++ merged)) timestamps []
  rw [List.nil_append] at h3
  rw [h3]

/-- C10: calling `build_output` with an empty `output_tracks` list
behaves exactly as calling it with `[Original]` — the Original track is
the default selection (`lyrics.py` lines 98-99), for every bundle,
configuration, pinyin capability, format, policy and separator. -/
theorem C10_theorem (lyrics : Lyrics) (config : AppConfig)
    (cap : Option (Str → List Str)) (fmt : OutputFormat) (pol : ShowLrcType)
    (sep : Str) :
    build_output lyrics config cap [] fmt pol sep
      = build_output lyrics config cap [LyricType.original] fmt pol sep := rfl

/-! ### Lemmas for the Isolated policy and for empty bundles -/

theorem tmGet_single (u : LyricType) (m : TsMap) : tmGet [(u, m)] u = m := by
  simp [tmGet]

theorem srtLoop_single_label (m : TsMap) (config : AppConfig) (sep : Str)
    (u u' : LyricType) :
    ∀ (l : List Nat) (i : Nat),
      srtLoop [(u, m)] config sep ShowLrcType.isolated [u] l i
        = srtLoop [(u', m)] config sep ShowLrcType.isolated [u'] l i := by
  intro l
  induction l with
  | nil => intro i; rfl
  | cons ts rest ih =>
    intro i
    simp only [srtLoop, List.foldl_cons, List.foldl_nil,
      if_neg (show ¬ (ShowLrcType.isolated = ShowLrcType.merge) by decide), tmGet_single]
    by_cases hc : config.ignore_empty_lines ∧ mapGet m ts = []
    · simp only [if_pos hc]
      simpa using ih i
    · have hne : ¬ ([mapGet m ts] = ([] : List Str)) := by simp
      simp only [if_neg hc, List.nil_append, if_neg hne]
      rw [ih (i + 1)]

theorem render_lrc_single_label (m : TsMap) (config : AppConfig) (sep : Str)
    (u u' : LyricType) (l : List Nat) :
    render_lrc [(u, m)] l config sep ShowLrcType.isolated [u]
      = render_lrc [(u', m)] l config sep ShowLrcType.isolated [u'] := by
  unfold render_lrc
  have hstep : (fun (lines : List Str) (ts : Nat) =>
      if ShowLrcType.isolated = ShowLrcType.merge then
        let merged := merge_texts [(u, m)] [u] ts sep config.ignore_empty_lines
        if merged = [] then lines
        else lines ++ [format_timestamp ts config.lrc_timestamp_format ++ merged]
      else
        [u].foldl (fun lines t =>
          let text := mapGet (tmGet [(u, m)] t) ts
          if config.ignore_empty_lines ∧ text = [] then lines
          else lines ++ [format_timestamp ts config.lrc_timestamp_format ++ text]) lines)
    = (fun lines ts =>
      if ShowLrcType.isolated = ShowLrcType.merge then
        let merged := merge_texts [(u', m)] [u'] ts sep config.ignore_empty_lines
        if merged = [] then lines
        else lines ++ [format_timestamp ts config.lrc_timestamp_format ++ merged]
      else
        [u'].foldl (fun lines t =>
          let text := mapGet (tmGet [(u', m)] t) ts
          if config.ignore_empty_lines ∧ text = [] then lines
          else lines ++ [format_timestamp ts config.lrc_timestamp_format ++ text]) lines) := by
    funext lines ts
    simp only [if_neg (show ¬ (ShowLrcType.isolated = ShowLrcType.merge) by decide),
      List.foldl_cons, List.foldl_nil, tmGet_single]
  rw [hstep]

/-- C8: under the Isolated policy `build_output` returns one payload per
requested track, in order (first and second conjuncts): the payload for
track `t` is the render of that track's own single map wrapped as the
sole dictionary entry, with `filename_suffix` set to `t`'s string value.
Each such render restricts the timeline to that map's own keys and is
independent of every other track — its content does not even depend on
the track label used as the dictionary key (third conjunct). -/
theorem C8_theorem (lyrics : Lyrics) (config : AppConfig) (cap : Option (Str → List Str))
    (types : List LyricType) (fmt : OutputFormat) (sep : Str) (h : types ≠ []) :
    build_output lyrics config cap types fmt ShowLrcType.isolated sep
      = types.map (fun t =>
          { render_output (MapsArg.single (tmGet (lineMapsOf lyrics config cap) t)) fmt config
              sep ShowLrcType.isolated [t] with suffix := some t.value }) ∧
    (build_output lyrics config cap types fmt ShowLrcType.isolated sep).length
      = types.length ∧
    (∀ u u' : LyricType, ∀ m : TsMap,
      (render_output (MapsArg.single m) fmt config sep ShowLrcType.isolated [u]).content
        = (render_output (MapsArg.single m) fmt config sep ShowLrcType.isolated [u']).content) := by
  have h1 : build_output lyrics config cap types fmt ShowLrcType.isolated sep
      = types.map (fun t =>
          { render_output (MapsArg.single (tmGet (lineMapsOf lyrics config cap) t)) fmt config
              sep ShowLrcType.isolated [t] with suffix := some t.value }) := by
    unfold build_output
    rw [if_neg h]
    rw [if_pos rfl]
  refine ⟨h1, by rw [h1]; simp, ?_⟩
  intro u u' m
  cases fmt with
  | srt =>
    show pyStrip (pyJoin (pstr "\n") (srtLoop [(u, m)] config sep ShowLrcType.isolated [u]
        (renderTimestamps [(u, m)]) 1)) = _
    rw [show renderTimestamps [(u, m)] = renderTimestamps [(u', m)] from rfl]
    rw [srtLoop_single_label m config sep u u']
    rfl
  | lrc =>
    show render_lrc [(u, m)] (renderTimestamps [(u, m)]) config sep ShowLrcType.isolated [u] = _
    rw [show renderTimestamps [(u, m)] = renderTimestamps [(u', m)] from rfl]
    rw [render_lrc_single_label m config sep u u']
    rfl

/-- C8 witness: two requested tracks on an empty bundle yield exactly two
payloads with the per-track suffixes. -/
theorem C8_witness :
    ([LyricType.original, LyricType.translated] ≠ ([] : List LyricType)) ∧
    (build_output {} exampleConfig none [LyricType.original, LyricType.translated]
        OutputFormat.lrc ShowLrcType.isolated (pstr " / ")
      = [LyricType.original, LyricType.translated].map (fun t =>
          { render_output
              (MapsArg.single (tmGet (lineMapsOf {} exampleConfig none) t))
              OutputFormat.lrc exampleConfig (pstr " / ") ShowLrcType.isolated [t] with
            suffix := some t.value }) ∧
    (build_output {} exampleConfig none [LyricType.original, LyricType.translated]
        OutputFormat.lrc ShowLrcType.isolated (pstr " / ")).length
      = [LyricType.original, LyricType.translated].length ∧
    (∀ u u' : LyricType, ∀ m : TsMap,
      (render_output (MapsArg.single m) OutputFormat.lrc exampleConfig (pstr " / ")
          ShowLrcType.isolated [u]).content
        = (render_output (MapsArg.single m) OutputFormat.lrc exampleConfig (pstr " / ")
            ShowLrcType.isolated [u']).content)) :=
  ⟨by decide,
    C8_theorem {} exampleConfig none [LyricType.original, LyricType.translated]
      OutputFormat.lrc (pstr " / ") (by decide)⟩

theorem lineMapsOf_empty (config : AppConfig) (cap : Option (Str → List Str)) :
    lineMapsOf {} config cap
      = [ (LyricType.original, ([] : TsMap)), (LyricType.translated, []),
          (LyricType.transliteration, []), (LyricType.pinyin, []) ] := by
  unfold lineMapsOf
  cases cap <;> simp [parse_lrc, build_pinyin_lines, lines_to_map]

theorem tmGet_empty_four (t : LyricType) :
    tmGet [ (LyricType.original, ([] : TsMap)), (LyricType.translated, []),
            (LyricType.transliteration, []), (LyricType.pinyin, []) ] t = [] := by
  cases t <;> rfl

theorem content_empty_single (fmt : OutputFormat) (config : AppConfig) (sep : Str)
    (t : LyricType) :
    (render_output (MapsArg.single []) fmt config sep ShowLrcType.isolated [t]).content
      = [] := by
  cases fmt <;> rfl

theorem content_empty_multi (fmt : OutputFormat) (config : AppConfig) (sep : Str)
    (pol : ShowLrcType) (types : List LyricType) :
    (render_output (MapsArg.multi
        [ (LyricType.original, ([] : TsMap)), (LyricType.translated, []),
          (LyricType.transliteration, []), (LyricType.pinyin, []) ])
      fmt config sep pol types).content = [] := by
  cases fmt <;> rfl

/-- C9: rendering is total over lyric inputs — every definition of the
embedding is a total function, and the benign outcomes the claim
describes hold: an empty blob parses to no lines at all (first
conjunct); a track with no parsed lines contributes no keys, i.e. an
empty map inserted anywhere in the collection leaves the union timeline
unchanged (second conjunct); and on the entirely empty bundle
`build_output` returns, for every configuration, capability, track
selection, format and policy, a payload list all of whose contents are
the empty string — never an error value (third conjunct). -/
theorem C9_theorem (config : AppConfig) (cap : Option (Str → List Str))
    (types : List LyricType) (fmt : OutputFormat) (pol : ShowLrcType) (sep : Str) :
    (∀ b : Bool, parse_lrc [] b = []) ∧
    (∀ ms1 ms2 : List TsMap,
      collect_timestamps (ms1 ++ [] :: ms2) = collect_timestamps (ms1 ++ ms2)) ∧
    (build_output {} config cap types fmt pol sep).all
      (fun p => p.content == []) = true := by
  refine ⟨fun b => rfl, ?_, ?_⟩
  · intro ms1 ms2
    unfold collect_timestamps
    congr 2
    simp [mapKeys]
  · unfold build_output
    rw [lineMapsOf_empty]
    by_cases hpol : pol = ShowLrcType.isolated
    · subst hpol
      rw [if_pos rfl]
      rw [List.all_eq_true]
      intro p hp
      rcases List.mem_map.mp hp with ⟨t, ht, rfl⟩
      have hc := content_empty_single fmt config sep t
      rw [tmGet_empty_four t]
      simp [hc]
    · rw [if_neg hpol]
      simp [content_empty_multi]

end LyricBridge
